import Mathlib

/-!
# Verification of the grpc-node client core (grpc-js)

Shallow embedding of `packages/grpc-js/src/client.ts`,
`packages/grpc-js/src/call.ts` and the filter module, together with proofs
about the embedded definitions.

The per-call event handlers installed on a `Call` (an EventEmitter) are
modelled as state-transition functions over an explicit trace of call
events.  Each handler step returns the updated handler state together with
the list of observable actions it performs (calls to
`call.cancelWithStatus`, `stream.push`, `stream.emit`, user callbacks,
`call.pause` / `call.resume`), in the order the source performs them.
Throwing JavaScript functions (user serializers / deserializers) are
embedded as `Except`-valued functions; a thrown error is `Except.error`.
-/

namespace GrpcJs

/-- gRPC status codes, from `constants.ts` (`Status` enum). -/
inductive Status where
  | OK
  | CANCELLED
  | UNKNOWN
  | INVALID_ARGUMENT
  | DEADLINE_EXCEEDED
  | NOT_FOUND
  | ALREADY_EXISTS
  | PERMISSION_DENIED
  | RESOURCE_EXHAUSTED
  | FAILED_PRECONDITION
  | ABORTED
  | OUT_OF_RANGE
  | UNIMPLEMENTED
  | INTERNAL
  | UNAVAILABLE
  | DATA_LOSS
  | UNAUTHENTICATED
deriving DecidableEq, Repr

/-- A wire-level byte buffer (Node `Buffer`), modelled as a byte list. -/
abbrev Buffer := List Nat

/-- Metadata: a multi-valued header bag.  The claims below never inspect
its contents, only pass instances around, so a list of key/value pairs
suffices. -/
structure Metadata where
  entries : List (String × String)
deriving DecidableEq, Repr

/-- `new Metadata()`: an empty metadata bag. -/
def Metadata.empty : Metadata := ⟨[]⟩

/-- `StatusObject` from `call-stream.ts`: terminal status record. -/
structure StatusObject where
  code : Status
  details : String
  metadata : Metadata
deriving DecidableEq, Repr

/-- A `WriteObject`: message payload plus optional flag word. -/
structure WriteObject where
  message : Buffer
  flags : Option Nat := none
deriving DecidableEq, Repr

/-- One event observed on a `Call` by the handlers set up in `client.ts` /
`call.ts`, plus the surface-side `_read` request (`readReq`), which the
stream classes translate into `call.resume()`.  The `pushOk` flag on
`data` is the boolean that `stream.push` returns for the deserialized
message (`false` = the stream buffer is full). -/
inductive CallEvent where
  | metadata (md : Metadata)
  | data (b : Buffer) (pushOk : Bool)
  | endEv
  | status (st : StatusObject)
  | readReq
deriving DecidableEq, Repr

/-- Run a handler (a state-transition function emitting actions) over a
trace of call events, concatenating the emitted actions in order. -/
def runHandler {σ α : Type} (step : σ → CallEvent → σ × List α) :
    σ → List CallEvent → σ × List α
  | s, [] => (s, [])
  | s, e :: es =>
      let p := step s e
      let q := runHandler step p.1 es
      (q.1, p.2 ++ q.2)

theorem runHandler_cons {σ α : Type} (step : σ → CallEvent → σ × List α)
    (s : σ) (e : CallEvent) (es : List CallEvent) :
    runHandler step s (e :: es) =
      ((runHandler step (step s e).1 es).1,
       (step s e).2 ++ (runHandler step (step s e).1 es).2) := rfl

theorem runHandler_append {σ α : Type} (step : σ → CallEvent → σ × List α)
    (s : σ) (es1 es2 : List CallEvent) :
    runHandler step s (es1 ++ es2) =
      ((runHandler step (runHandler step s es1).1 es2).1,
       (runHandler step s es1).2 ++ (runHandler step (runHandler step s es1).1 es2).2) := by
  induction es1 generalizing s with
  | nil => simp [runHandler]
  | cons e es ih => simp [runHandler, ih, List.append_assoc]

/-! ## `Client.handleUnaryResponse` (client.ts)

The handler keeps `responseMessage : ResponseType | null`, modelled as
`Option Resp`.  Its observable actions are calls to
`call.cancelWithStatus` and invocations of the user callback. -/

/-- Observable actions of the unary response handler.  `callback err value`
models `callback(error)` (as `callback (some st) none`) and
`callback(null, responseMessage)` (as `callback none responseMessage`,
where the message can still be `none` if no message ever arrived). -/
inductive UnaryAction (Resp : Type) where
  | cancelWithStatus (code : Status) (details : String)
  | callback (err : Option StatusObject) (value : Option Resp)
deriving DecidableEq, Repr

/-- One step of `handleUnaryResponse`'s event handlers, transcribed from
`client.ts`.  On `data`: first the `responseMessage != null` check (which
cancels with "Too many responses received" but does NOT return), then the
`try { responseMessage = deserialize(data) } catch` block.  On `end`: the
`responseMessage == null` check.  On `status`: the OK / non-OK callback
dispatch, where the non-OK error object is `Object.assign(new
Error(status.details), status)`, carried here as the status record. -/
def unaryStep {Resp : Type} (deserialize : Buffer → Except String Resp)
    (s : Option Resp) : CallEvent → Option Resp × List (UnaryAction Resp)
  | .metadata _ => (s, [])
  | .readReq => (s, [])
  | .data b _ =>
      let tooMany : List (UnaryAction Resp) :=
        if s.isSome then
          [.cancelWithStatus .INTERNAL "Too many responses received"]
        else []
      match deserialize b with
      | .ok v => (some v, tooMany)
      | .error _ =>
          (s, tooMany ++
            [.cancelWithStatus .INTERNAL "Failed to parse server response"])
  | .endEv =>
      if s.isNone then
        (s, [.cancelWithStatus .INTERNAL "Not enough responses received"])
      else (s, [])
  | .status st =>
      if st.code = .OK then (s, [.callback none s])
      else (s, [.callback (some st) none])

/-- `Client.handleUnaryResponse`: run the unary handlers over a call-event
trace, starting from `responseMessage = null`. -/
def handleUnaryResponse {Resp : Type} (deserialize : Buffer → Except String Resp)
    (events : List CallEvent) : List (UnaryAction Resp) :=
  (runHandler (unaryStep deserialize) none events).2

/-- The well-formed event order of a call per the Call contract:
`metadata`, zero or more `data`, `end`, `status`. -/
def unaryTrace (md : Metadata) (bufs : List Buffer) (st : StatusObject) :
    List CallEvent :=
  CallEvent.metadata md :: (bufs.map fun b => CallEvent.data b true) ++
    [CallEvent.endEv, CallEvent.status st]

/-- C1: over a well-formed trace (metadata, data*, end, status) whose data
payloads all deserialize successfully, the unary response handler (i)
cancels the call with INTERNAL "Not enough responses received" when no
data event occurred before `end`, (ii) cancels with INTERNAL "Too many
responses received" when a second data event occurs, and (iii) when the
terminal status is OK with a single message, invokes the user callback
with a null error and the single deserialized response. -/
theorem handleUnaryResponse_unary_arity {Resp : Type}
    (deserialize : Buffer → Except String Resp)
    (md : Metadata) (bufs : List Buffer) (st : StatusObject)
    (hok : ∀ b ∈ bufs, ∃ v, deserialize b = Except.ok v) :
    (bufs = [] →
      UnaryAction.cancelWithStatus Status.INTERNAL "Not enough responses received" ∈
        handleUnaryResponse deserialize (unaryTrace md bufs st))
    ∧ (2 ≤ bufs.length →
      UnaryAction.cancelWithStatus Status.INTERNAL "Too many responses received" ∈
        handleUnaryResponse deserialize (unaryTrace md bufs st))
    ∧ (∀ b v, bufs = [b] → st.code = Status.OK → deserialize b = Except.ok v →
      handleUnaryResponse deserialize (unaryTrace md bufs st) =
        [UnaryAction.callback none (some v)]) := by
  refine ⟨?_, ?_, ?_⟩
  · rintro rfl
    simp only [handleUnaryResponse, unaryTrace, List.map_nil, List.nil_append,
      runHandler, unaryStep, Option.isNone_none, if_true]
    split <;> simp
  · intro hlen
    cases bufs with
    | nil => simp at hlen
    | cons b1 t =>
      cases t with
      | nil => simp at hlen
      | cons b2 t2 =>
        obtain ⟨v1, hv1⟩ := hok b1 (by simp)
        obtain ⟨v2, hv2⟩ := hok b2 (by simp)
        simp [handleUnaryResponse, unaryTrace, runHandler, unaryStep, hv1, hv2]
  · rintro b v rfl hcode hdes
    simp [handleUnaryResponse, unaryTrace, runHandler, unaryStep, hdes, hcode]

/-- Witness for C1 at a concrete input: two messages, OK trailers. -/
theorem handleUnaryResponse_unary_arity_witness :
    UnaryAction.cancelWithStatus Status.INTERNAL "Too many responses received" ∈
      handleUnaryResponse (fun b => Except.ok b.length)
        (unaryTrace Metadata.empty [[0], [1]] ⟨Status.OK, "", Metadata.empty⟩) :=
  (handleUnaryResponse_unary_arity (fun b => Except.ok b.length)
      Metadata.empty [[0], [1]] ⟨Status.OK, "", Metadata.empty⟩
      (fun b _ => ⟨b.length, rfl⟩)).2.1 (by decide)

/-! ## `setUpReadableStream` (call.ts)

Shared by `ClientReadableStreamImpl` and `ClientDuplexStreamImpl`.  The
handler state is the `statusEmitted` flag plus the number of pending
`call.once('status', () => stream.push(null))` registrations made by the
`end` handler (EventEmitter `once` listeners fire, in registration order,
after the main `status` listener registered at setup time). -/

/-- Handler state of `setUpReadableStream`. -/
structure ReadableState where
  statusEmitted : Bool
  pendingEnd : Nat
deriving DecidableEq, Repr

/-- Observable actions of the readable surface machinery: `stream.push`
(`push none` is `push(null)`, end of stream), metadata / error / status
emissions on the surface stream, `call.cancelWithStatus`, `call.pause`
and `call.resume`. -/
inductive StreamAction (Resp : Type) where
  | push (v : Option Resp)
  | emitMetadata (md : Metadata)
  | emitError (st : StatusObject)
  | emitStatus (st : StatusObject)
  | cancelWithStatus (code : Status) (details : String)
  | pause
  | resume
deriving DecidableEq, Repr

/-- One step of the handlers installed by the stream constructors and
`setUpReadableStream`, transcribed from `call.ts`:
 * `metadata` is re-emitted (constructor handler);
 * `data`: deserialize; on throw, cancel INTERNAL "Failed to parse server
   response" and return; otherwise push, and `call.pause()` when the push
   is refused;
 * `end`: push `null` at once if `statusEmitted`, else register a `once`
   status listener;
 * `status`: emit `error` first when the code is not OK, then `status`,
   then fire the pending once-listeners; record `statusEmitted`;
 * `readReq` (`_read` on the surface): `call.resume()`. -/
def readableStep {Resp : Type} (deserialize : Buffer → Except String Resp)
    (s : ReadableState) : CallEvent → ReadableState × List (StreamAction Resp)
  | .metadata md => (s, [.emitMetadata md])
  | .data b pushOk =>
      match deserialize b with
      | .error _ =>
          (s, [.cancelWithStatus .INTERNAL "Failed to parse server response"])
      | .ok v =>
          (s, .push (some v) :: if pushOk then [] else [.pause])
  | .endEv =>
      if s.statusEmitted then (s, [.push none])
      else ({ s with pendingEnd := s.pendingEnd + 1 }, [])
  | .status st =>
      (⟨true, 0⟩,
        (if st.code ≠ Status.OK then [StreamAction.emitError st] else []) ++
          StreamAction.emitStatus st :: List.replicate s.pendingEnd (.push none))
  | .readReq => (s, [.resume])

/-- The actions performed at surface-stream construction time together
with the handler run over the call's event trace.  Construction ends with
`call.pause()` (last line of `setUpReadableStream`). -/
def processReadable {Resp : Type} (deserialize : Buffer → Except String Resp)
    (events : List CallEvent) : List (StreamAction Resp) :=
  StreamAction.pause :: (runHandler (readableStep deserialize) ⟨false, 0⟩ events).2

/-- Does an action list contain a surface `status` emission? -/
def hasEmitStatus {Resp : Type} (out : List (StreamAction Resp)) : Bool :=
  out.any fun a => match a with | .emitStatus _ => true | _ => false

/-- Does an action list contain a surface `error` emission? -/
def hasEmitError {Resp : Type} (out : List (StreamAction Resp)) : Bool :=
  out.any fun a => match a with | .emitError _ => true | _ => false

/-- Is an event a call `status` event? -/
def isStatusEv : CallEvent → Bool
  | .status _ => true
  | _ => false

theorem hasEmitStatus_append {Resp : Type} (a b : List (StreamAction Resp)) :
    hasEmitStatus (a ++ b) = (hasEmitStatus a || hasEmitStatus b) := by
  simp [hasEmitStatus, List.any_append]

theorem hasEmitError_append {Resp : Type} (a b : List (StreamAction Resp)) :
    hasEmitError (a ++ b) = (hasEmitError a || hasEmitError b) := by
  simp [hasEmitError, List.any_append]

/-- A status-free event segment produces neither `status` nor `error`
emissions on the surface stream. -/
theorem readable_statusFree_noEmit {Resp : Type}
    (deserialize : Buffer → Except String Resp) (es : List CallEvent)
    (s : ReadableState) (hfree : ∀ e ∈ es, isStatusEv e = false) :
    hasEmitStatus (runHandler (readableStep deserialize) s es).2 = false ∧
    hasEmitError (runHandler (readableStep deserialize) s es).2 = false := by
  induction es generalizing s with
  | nil => simp [runHandler, hasEmitStatus, hasEmitError]
  | cons e es ih =>
    have he := hfree e (by simp)
    have hrest := ih (readableStep deserialize s e).1
      (fun e' h' => hfree e' (by simp [h']))
    rw [runHandler_cons, hasEmitStatus_append, hasEmitError_append,
      hrest.1, hrest.2]
    cases e with
    | metadata md => simp [readableStep, hasEmitStatus, hasEmitError]
    | data b pushOk =>
        cases hd : deserialize b with
        | error err => simp [readableStep, hd, hasEmitStatus, hasEmitError]
        | ok v =>
            cases pushOk <;>
              simp [readableStep, hd, hasEmitStatus, hasEmitError]
    | endEv =>
        by_cases hse : s.statusEmitted <;>
          simp [readableStep, hse, hasEmitStatus, hasEmitError]
    | status st => simp [isStatusEv] at he
    | readReq => simp [readableStep, hasEmitStatus, hasEmitError]

theorem hasEmitError_replicate_push {Resp : Type} (n : Nat) (v : Option Resp) :
    hasEmitError (List.replicate n (StreamAction.push v)) = false := by
  simp [hasEmitError]

/-- C4: over a trace with a single terminal `status` event, when the
status code is not OK the surface stream emits an `error` carrying the
status record immediately before its `status` emission, and no `status`
or `error` was emitted earlier; when the code is OK, the stream never
emits `error`. -/
theorem readable_error_before_status {Resp : Type}
    (d : Buffer → Except String Resp) (pre post : List CallEvent)
    (st : StatusObject)
    (hpre : ∀ e ∈ pre, isStatusEv e = false)
    (hpost : ∀ e ∈ post, isStatusEv e = false) :
    (st.code ≠ Status.OK → ∃ out1 out2,
        processReadable d (pre ++ CallEvent.status st :: post) =
          out1 ++ StreamAction.emitError st :: StreamAction.emitStatus st :: out2 ∧
        hasEmitStatus out1 = false ∧ hasEmitError out1 = false)
    ∧ (st.code = Status.OK →
        hasEmitError (processReadable d (pre ++ CallEvent.status st :: post)) = false) := by
  have hpre' := readable_statusFree_noEmit d pre ⟨false, 0⟩ hpre
  rw [processReadable, runHandler_append, runHandler_cons]
  constructor
  · intro hne
    set s1 := (runHandler (readableStep d) ⟨false, 0⟩ pre).1 with hs1
    set A := (runHandler (readableStep d) ⟨false, 0⟩ pre).2 with hA
    set C := (runHandler (readableStep d)
      (readableStep d s1 (CallEvent.status st)).1 post).2 with hC
    refine ⟨StreamAction.pause :: A,
      List.replicate s1.pendingEnd (StreamAction.push none) ++ C, ?_, ?_, ?_⟩
    · simp [readableStep, hne]
    · simpa [hasEmitStatus] using hpre'.1
    · simpa [hasEmitError] using hpre'.2
  · intro hOK
    have hpost' := readable_statusFree_noEmit d post
      (readableStep d (runHandler (readableStep d) ⟨false, 0⟩ pre).1
        (CallEvent.status st)).1 hpost
    have hrep := hasEmitError_replicate_push
      ((runHandler (readableStep d) ⟨false, 0⟩ pre).1).pendingEnd
      (none : Option Resp)
    simp only [readableStep, hOK, ne_eq, not_true_eq_false, if_false,
      List.nil_append] at hpost' ⊢
    simp only [hasEmitError, List.any_append, List.any_cons] at hpre' hpost' hrep ⊢
    simp [hpre'.2, hpost'.2, hrep]

/-- Witness for C4: one metadata event, then a CANCELLED terminal status. -/
theorem readable_error_before_status_witness :
    ∃ out1 out2,
      processReadable (fun b => Except.ok b.length)
          ([CallEvent.metadata Metadata.empty] ++
            CallEvent.status ⟨Status.CANCELLED, "Cancelled on client", Metadata.empty⟩ :: []) =
        out1 ++
          StreamAction.emitError ⟨Status.CANCELLED, "Cancelled on client", Metadata.empty⟩ ::
          StreamAction.emitStatus ⟨Status.CANCELLED, "Cancelled on client", Metadata.empty⟩ :: out2 ∧
      hasEmitStatus out1 = false ∧ hasEmitError out1 = false :=
  (readable_error_before_status (fun b => Except.ok b.length)
      [CallEvent.metadata Metadata.empty] []
      ⟨Status.CANCELLED, "Cancelled on client", Metadata.empty⟩
      (by intro e he; simp at he; subst he; rfl)
      (by intro e he; simp at he)).1 (by decide)

/-! ## Deferred close (C7): `push(null)` only after the status emission -/

/-- Scans an action list left to right and checks that every `push none`
(`stream.push(null)`, end of stream) occurs after some `status` emission;
`seen` records whether a `status` emission has already been scanned. -/
def pushNullAfterStatus {Resp : Type} : Bool → List (StreamAction Resp) → Bool
  | _, [] => true
  | _, .emitStatus _ :: rest => pushNullAfterStatus true rest
  | seen, .push none :: rest => seen && pushNullAfterStatus seen rest
  | seen, _ :: rest => pushNullAfterStatus seen rest

theorem pushNullAfterStatus_append {Resp : Type}
    (a b : List (StreamAction Resp)) (seen : Bool) :
    pushNullAfterStatus seen (a ++ b) =
      (pushNullAfterStatus seen a &&
        pushNullAfterStatus (seen || hasEmitStatus a) b) := by
  induction a generalizing seen with
  | nil => simp [pushNullAfterStatus, hasEmitStatus]
  | cons x a ih =>
    cases x with
    | push v =>
        cases v with
        | none => simp [pushNullAfterStatus, hasEmitStatus, ih, Bool.and_assoc]
        | some w => simp [pushNullAfterStatus, hasEmitStatus, ih]
    | emitMetadata md => simp [pushNullAfterStatus, hasEmitStatus, ih]
    | emitError st => simp [pushNullAfterStatus, hasEmitStatus, ih]
    | emitStatus st => simp [pushNullAfterStatus, hasEmitStatus, ih]
    | cancelWithStatus c det => simp [pushNullAfterStatus, hasEmitStatus, ih]
    | pause => simp [pushNullAfterStatus, hasEmitStatus, ih]
    | resume => simp [pushNullAfterStatus, hasEmitStatus, ih]

theorem pushNullAfterStatus_replicate {Resp : Type} (n : Nat) :
    pushNullAfterStatus true
      (List.replicate n (StreamAction.push (none : Option Resp))) = true := by
  induction n with
  | zero => simp [pushNullAfterStatus]
  | succ n ih => rw [List.replicate_succ]; simp [pushNullAfterStatus, ih]

theorem readableStep_pushNull {Resp : Type}
    (d : Buffer → Except String Resp) (s : ReadableState) (e : CallEvent) :
    pushNullAfterStatus s.statusEmitted (readableStep d s e).2 = true := by
  cases e with
  | metadata md => simp [readableStep, pushNullAfterStatus]
  | data b pushOk =>
      cases hd : d b with
      | error err => simp [readableStep, hd, pushNullAfterStatus]
      | ok v => cases pushOk <;> simp [readableStep, hd, pushNullAfterStatus]
  | endEv =>
      cases hse : s.statusEmitted <;>
        simp [readableStep, hse, pushNullAfterStatus]
  | status st =>
      by_cases hc : st.code = Status.OK <;>
        simp [readableStep, hc, pushNullAfterStatus, pushNullAfterStatus_replicate]
  | readReq => simp [readableStep, pushNullAfterStatus]

theorem readableStep_statusFlag {Resp : Type}
    (d : Buffer → Except String Resp) (s : ReadableState) (e : CallEvent) :
    ((readableStep d s e).1).statusEmitted =
      (s.statusEmitted || hasEmitStatus (readableStep d s e).2) := by
  cases e with
  | metadata md => simp [readableStep, hasEmitStatus]
  | data b pushOk =>
      cases hd : d b with
      | error err => simp [readableStep, hd, hasEmitStatus]
      | ok v => cases pushOk <;> simp [readableStep, hd, hasEmitStatus]
  | endEv =>
      cases hse : s.statusEmitted <;> simp [readableStep, hse, hasEmitStatus]
  | status st =>
      by_cases hc : st.code = Status.OK <;>
        simp [readableStep, hc, hasEmitStatus]
  | readReq => simp [readableStep, hasEmitStatus]

theorem pushNullAfterStatus_run {Resp : Type}
    (d : Buffer → Except String Resp) (es : List CallEvent) (s : ReadableState) :
    pushNullAfterStatus s.statusEmitted
      (runHandler (readableStep d) s es).2 = true := by
  induction es generalizing s with
  | nil => simp [runHandler, pushNullAfterStatus]
  | cons e es ih =>
    rw [runHandler_cons, pushNullAfterStatus_append, readableStep_pushNull,
      ← readableStep_statusFlag, ih]
    rfl

/-- C7: (a) in every run of the readable surface handlers, `push(null)`
(end of stream to the application) occurs only after the stream's
`status` emission; (b) the `end` handler closes at once when
`statusEmitted` is set; (c) otherwise it performs nothing, registers a
pending close, and the close fires during the subsequent `status` event's
processing. -/
theorem readable_close_awaits_status {Resp : Type}
    (d : Buffer → Except String Resp) (events : List CallEvent)
    (s : ReadableState) (st : StatusObject) :
    pushNullAfterStatus false (processReadable d events) = true
    ∧ (s.statusEmitted = true →
        readableStep d s CallEvent.endEv = (s, [StreamAction.push none]))
    ∧ (s.statusEmitted = false →
        readableStep d s CallEvent.endEv =
          ({ s with pendingEnd := s.pendingEnd + 1 }, [])
        ∧ StreamAction.push none ∈
            (readableStep d { s with pendingEnd := s.pendingEnd + 1 }
              (CallEvent.status st)).2) := by
  refine ⟨?_, ?_, ?_⟩
  · have h := pushNullAfterStatus_run d events (⟨false, 0⟩ : ReadableState)
    simpa [processReadable, pushNullAfterStatus] using h
  · intro hse; simp [readableStep, hse]
  · intro hse
    refine ⟨by simp [readableStep, hse], ?_⟩
    by_cases hc : st.code = Status.OK <;>
      simp [readableStep, hc, List.replicate_succ]

/-- Witness for C7 at concrete states: status already emitted and not. -/
theorem readable_close_awaits_status_witness :
    pushNullAfterStatus false
      (processReadable (fun b => Except.ok b.length)
        [CallEvent.endEv,
         CallEvent.status ⟨Status.OK, "", Metadata.empty⟩]) = true
    ∧ readableStep (fun b => Except.ok b.length)
        ⟨true, 0⟩ CallEvent.endEv = (⟨true, 0⟩, [StreamAction.push none]) :=
  ⟨(readable_close_awaits_status (fun b => Except.ok b.length)
      [CallEvent.endEv, CallEvent.status ⟨Status.OK, "", Metadata.empty⟩]
      ⟨true, 0⟩ ⟨Status.OK, "", Metadata.empty⟩).1,
   (readable_close_awaits_status (fun b => Except.ok b.length)
      [CallEvent.endEv, CallEvent.status ⟨Status.OK, "", Metadata.empty⟩]
      ⟨true, 0⟩ ⟨Status.OK, "", Metadata.empty⟩).2.1 rfl⟩

/-! ## Pause at construction / resume on read (C9) -/

/-- Number of `call.resume()` invocations in an action list. -/
def resumeCount {Resp : Type} (out : List (StreamAction Resp)) : Nat :=
  out.countP fun a => match a with | .resume => true | _ => false

/-- Number of surface `_read` requests in an event trace. -/
def readReqCount (es : List CallEvent) : Nat :=
  es.countP fun e => match e with | .readReq => true | _ => false

theorem resumeCount_run {Resp : Type}
    (d : Buffer → Except String Resp) (es : List CallEvent) (s : ReadableState) :
    resumeCount (runHandler (readableStep d) s es).2 = readReqCount es := by
  induction es generalizing s with
  | nil => simp [runHandler, resumeCount, readReqCount]
  | cons e es ih =>
    rw [runHandler_cons]
    simp only [resumeCount, readReqCount, List.countP_append,
      List.countP_cons] at ih ⊢
    rw [ih]
    have hstep : ((readableStep d s e).2).countP
        (fun a => match a with | .resume => true | _ => false) =
        (if (match e with | .readReq => true | _ => false) = true
         then 1 else 0) := by
      cases e with
      | metadata md => simp [readableStep]
      | data b pushOk =>
          cases hd : d b with
          | error err => simp [readableStep, hd]
          | ok v => cases pushOk <;> simp [readableStep, hd]
      | endEv => cases hse : s.statusEmitted <;> simp [readableStep, hse]
      | status st =>
          by_cases hc : st.code = Status.OK <;>
            simp [readableStep, hc, List.countP_cons]
      | readReq => simp [readableStep]
    omega

/-- C9: the surface stream pauses the Call at construction time (the
first action is `call.pause()`), and `call.resume()` is performed exactly
once per `_read` request from the application: a trace with no read
request never resumes the Call. -/
theorem readable_pause_resume {Resp : Type}
    (d : Buffer → Except String Resp) (events : List CallEvent) :
    (processReadable d events).head? = some StreamAction.pause
    ∧ resumeCount (processReadable d events) = readReqCount events := by
  refine ⟨rfl, ?_⟩
  have h := resumeCount_run d events (⟨false, 0⟩ : ReadableState)
  simpa [processReadable, resumeCount, List.countP_cons] using h

/-! ## Deserialization failure (C5) -/

/-- C5: when the user deserialization function throws on an inbound
message, both receive paths cancel the call with INTERNAL "Failed to
parse server response": the readable-stream handler performs exactly that
cancellation (no push, state unchanged), and the unary handler performs
it after the possible arity cancellation, leaving `responseMessage`
unchanged (the failing message is not recorded). -/
theorem deserialize_failure_cancels {Resp : Type}
    (d : Buffer → Except String Resp) (b : Buffer) (err : String)
    (hthrow : d b = Except.error err) :
    (∀ (s : ReadableState) (pushOk : Bool),
      readableStep d s (CallEvent.data b pushOk) =
        (s, [StreamAction.cancelWithStatus Status.INTERNAL
              "Failed to parse server response"]))
    ∧ (∀ s : Option Resp,
      unaryStep d s (CallEvent.data b true) =
        (s, (if s.isSome then
              [UnaryAction.cancelWithStatus Status.INTERNAL
                "Too many responses received"]
             else []) ++
          [UnaryAction.cancelWithStatus Status.INTERNAL
            "Failed to parse server response"])) := by
  constructor
  · intro s pushOk
    simp [readableStep, hthrow]
  · intro s
    simp [unaryStep, hthrow]

/-- Witness for C5: a deserializer rejecting every buffer. -/
theorem deserialize_failure_cancels_witness :
    readableStep (fun _ => (Except.error "bad" : Except String Nat)) ⟨false, 0⟩
        (CallEvent.data [7] true) =
      (⟨false, 0⟩, [StreamAction.cancelWithStatus Status.INTERNAL
        "Failed to parse server response"]) :=
  (deserialize_failure_cancels (fun _ => (Except.error "bad" : Except String Nat))
    [7] "bad" rfl).1 ⟨false, 0⟩ true

/-! ## `tryWrite` (call.ts) — serialization failure (C3)

`const flags = Number(encoding)` parses the per-write ancillary argument;
we embed the parsed result directly: `flags = none` models `NaN`, in
which case no `flags` field is set on the `WriteObject`. -/

/-- Observable actions of `tryWrite`: `call.cancelWithStatus`, invoking
the write completion callback with the thrown error, and `call.write`
with the built `WriteObject` (whose completion callback is handed to the
Call). -/
inductive WriteAction where
  | cancelWithStatus (code : Status) (details : String)
  | writeCallbackErr (e : String)
  | callWrite (w : WriteObject)
deriving DecidableEq, Repr

/-- `tryWrite`, transcribed from call.ts: serialize the chunk; on throw,
cancel with INTERNAL "Serialization failure", pass the error to the write
callback and return; otherwise hand the `WriteObject` to `call.write`. -/
def tryWrite {Req : Type} (serialize : Req → Except String Buffer)
    (chunk : Req) (flags : Option Nat) : List WriteAction :=
  match serialize chunk with
  | .error e =>
      [.cancelWithStatus .INTERNAL "Serialization failure", .writeCallbackErr e]
  | .ok m => [.callWrite { message := m, flags := flags }]

/-- `ClientWritableStreamImpl._write` delegates to `tryWrite`. -/
def clientWritableWrite {Req : Type} (serialize : Req → Except String Buffer)
    (chunk : Req) (flags : Option Nat) : List WriteAction :=
  tryWrite serialize chunk flags

/-- `ClientDuplexStreamImpl._write` delegates to `tryWrite`. -/
def clientDuplexWrite {Req : Type} (serialize : Req → Except String Buffer)
    (chunk : Req) (flags : Option Nat) : List WriteAction :=
  tryWrite serialize chunk flags

/-- C3: when the user serialization function throws on a write, the call
is cancelled with INTERNAL "Serialization failure", the thrown error is
passed to that write's completion callback, and `call.write` is never
invoked for the chunk; this is the behavior of both the writable and the
duplex surface `_write`. -/
theorem tryWrite_serialization_failure {Req : Type}
    (serialize : Req → Except String Buffer) (chunk : Req)
    (flags : Option Nat) (e : String)
    (hthrow : serialize chunk = Except.error e) :
    tryWrite serialize chunk flags =
      [WriteAction.cancelWithStatus Status.INTERNAL "Serialization failure",
       WriteAction.writeCallbackErr e]
    ∧ (∀ w, WriteAction.callWrite w ∉ tryWrite serialize chunk flags)
    ∧ clientWritableWrite serialize chunk flags = tryWrite serialize chunk flags
    ∧ clientDuplexWrite serialize chunk flags = tryWrite serialize chunk flags := by
  refine ⟨by simp [tryWrite, hthrow], ?_, rfl, rfl⟩
  intro w
  simp [tryWrite, hthrow]

/-- Witness for C3: a serializer rejecting every chunk. -/
theorem tryWrite_serialization_failure_witness :
    tryWrite (fun _ : Nat => (Except.error "boom" : Except String Buffer)) 5 none =
      [WriteAction.cancelWithStatus Status.INTERNAL "Serialization failure",
       WriteAction.writeCallbackErr "boom"] :=
  (tryWrite_serialization_failure
    (fun _ : Nat => (Except.error "boom" : Except String Buffer)) 5 none
    "boom" rfl).1

/-! ## Surface `cancel()` (C6) -/

/-- A recorded invocation of `call.cancelWithStatus`. -/
structure CancelInvocation where
  code : Status
  details : String
deriving DecidableEq, Repr

/-- `ClientUnaryCallImpl.cancel` (call.ts). -/
def clientUnaryCallCancel : CancelInvocation :=
  ⟨Status.CANCELLED, "Cancelled on client"⟩

/-- `ClientReadableStreamImpl.cancel` (call.ts). -/
def clientReadableStreamCancel : CancelInvocation :=
  ⟨Status.CANCELLED, "Cancelled on client"⟩

/-- `ClientWritableStreamImpl.cancel` (call.ts). -/
def clientWritableStreamCancel : CancelInvocation :=
  ⟨Status.CANCELLED, "Cancelled on client"⟩

/-- `ClientDuplexStreamImpl.cancel` (call.ts). -/
def clientDuplexStreamCancel : CancelInvocation :=
  ⟨Status.CANCELLED, "Cancelled on client"⟩

/-- C6: every surface variant's `cancel()` invokes
`call.cancelWithStatus` with code CANCELLED and details
"Cancelled on client". -/
theorem surface_cancel_uniform :
    clientUnaryCallCancel = ⟨Status.CANCELLED, "Cancelled on client"⟩
    ∧ clientReadableStreamCancel = ⟨Status.CANCELLED, "Cancelled on client"⟩
    ∧ clientWritableStreamCancel = ⟨Status.CANCELLED, "Cancelled on client"⟩
    ∧ clientDuplexStreamCancel = ⟨Status.CANCELLED, "Cancelled on client"⟩ :=
  ⟨rfl, rfl, rfl, rfl⟩

/-! ## `BaseFilter` (filter module) -/

/-- A JavaScript Promise, modelled by its eventual outcome.  An `async`
function that returns its argument promise produces a promise with the
same outcome (same resolution value, same rejection). -/
inductive PromiseOutcome (α : Type) where
  | resolved (v : α)
  | rejected (e : String)
deriving DecidableEq, Repr

/-- `p` resolves to the value `v`. -/
def resolvesTo {α : Type} (p : PromiseOutcome α) (v : α) : Prop :=
  p = PromiseOutcome.resolved v

namespace BaseFilter

/-- `BaseFilter.sendMetadata`: returns its argument. -/
def sendMetadata (metadata : PromiseOutcome Metadata) : PromiseOutcome Metadata :=
  metadata

/-- `BaseFilter.receiveMetadata`: returns its argument. -/
def receiveMetadata (metadata : PromiseOutcome Metadata) : PromiseOutcome Metadata :=
  metadata

/-- `BaseFilter.sendMessage`: returns its argument. -/
def sendMessage (message : PromiseOutcome WriteObject) : PromiseOutcome WriteObject :=
  message

/-- `BaseFilter.receiveMessage`: returns its argument. -/
def receiveMessage (message : PromiseOutcome Buffer) : PromiseOutcome Buffer :=
  message

/-- `BaseFilter.receiveTrailers`: returns its argument. -/
def receiveTrailers (status : PromiseOutcome StatusObject) : PromiseOutcome StatusObject :=
  status

end BaseFilter

/-- C8: every transform of the default filter is an identity: the
returned promise resolves to exactly what the input promise resolves to
(and likewise propagates rejections, being equal to the input). -/
theorem baseFilter_identity :
    (∀ p : PromiseOutcome Metadata, BaseFilter.sendMetadata p = p)
    ∧ (∀ p : PromiseOutcome Metadata, BaseFilter.receiveMetadata p = p)
    ∧ (∀ p : PromiseOutcome WriteObject, BaseFilter.sendMessage p = p)
    ∧ (∀ p : PromiseOutcome Buffer, BaseFilter.receiveMessage p = p)
    ∧ (∀ p : PromiseOutcome StatusObject, BaseFilter.receiveTrailers p = p)
    ∧ (∀ (p : PromiseOutcome Metadata) (v : Metadata),
        resolvesTo (BaseFilter.sendMetadata p) v ↔ resolvesTo p v)
    ∧ (∀ (p : PromiseOutcome Metadata) (v : Metadata),
        resolvesTo (BaseFilter.receiveMetadata p) v ↔ resolvesTo p v)
    ∧ (∀ (p : PromiseOutcome WriteObject) (v : WriteObject),
        resolvesTo (BaseFilter.sendMessage p) v ↔ resolvesTo p v)
    ∧ (∀ (p : PromiseOutcome Buffer) (v : Buffer),
        resolvesTo (BaseFilter.receiveMessage p) v ↔ resolvesTo p v)
    ∧ (∀ (p : PromiseOutcome StatusObject) (v : StatusObject),
        resolvesTo (BaseFilter.receiveTrailers p) v ↔ resolvesTo p v) := by
  refine ⟨fun _ => rfl, fun _ => rfl, fun _ => rfl, fun _ => rfl, fun _ => rfl,
    ?_, ?_, ?_, ?_, ?_⟩ <;> intro p v <;> rfl

/-! ## Dispatch argument resolution (client.ts, C2)

The overloaded entry points inspect the runtime types of their trailing
arguments.  `DispatchArg` is the universe of values those slots can
carry: a `Metadata` instance, a `CallOptions` object, a callback function
(identified by a token), or `undefined`. -/

/-- `CallOptions` from client.ts. `parent` and `credentials` are carried
as opaque tokens. -/
structure CallOptions where
  deadline : Option Nat := none
  host : Option String := none
  parent : Option Nat := none
  propagate_flags : Option Nat := none
  credentials : Option Nat := none
deriving DecidableEq, Repr

/-- A runtime value in an optional argument slot. -/
inductive DispatchArg where
  | mdArg (m : Metadata)
  | optArg (o : CallOptions)
  | fnArg (f : Nat)
  | undef
deriving DecidableEq, Repr

/-- `x instanceof Function`. -/
def isFunction : DispatchArg → Bool
  | .fnArg _ => true
  | _ => false

/-- `x instanceof Metadata`. -/
def isMetadataArg : DispatchArg → Bool
  | .mdArg _ => true
  | _ => false

/-- `x instanceof Object` (all non-undefined values in this universe are
objects; functions and Metadata instances are objects in JavaScript). -/
def isObjectArg : DispatchArg → Bool
  | .undef => false
  | _ => true

/-- JavaScript truthiness of an argument slot (`if (arg2)`): objects are
truthy, `undefined` is falsy. -/
def isTruthy : DispatchArg → Bool
  | .undef => false
  | _ => true

/-- The resolved (metadata, options, callback) triple.  The options slot
keeps the raw value the source assigns (`options = arg1` / `options =
arg2` pass through whatever object was supplied). -/
structure ResolvedUnaryArgs where
  metadata : Metadata
  options : DispatchArg
  callback : Nat
deriving DecidableEq, Repr

/-- `Client.checkOptionalUnaryResponseArguments`, transcribed from
client.ts: callback-first dispatch on runtime types; the final branch
throws `Error('Incorrect arguments passed')` unless
`arg1 instanceof Metadata && arg2 instanceof Object &&
arg3 instanceof Function`. -/
def checkOptionalUnaryResponseArguments :
    DispatchArg → DispatchArg → DispatchArg → Except String ResolvedUnaryArgs
  | .fnArg f, _, _ => .ok ⟨Metadata.empty, .optArg {}, f⟩
  | .mdArg m, .fnArg f, _ => .ok ⟨m, .optArg {}, f⟩
  | a1, .fnArg f, _ => .ok ⟨Metadata.empty, a1, f⟩
  | .mdArg m, a2, .fnArg f =>
      if isObjectArg a2 then .ok ⟨m, a2, f⟩
      else .error "Incorrect arguments passed"
  | _, _, _ => .error "Incorrect arguments passed"

/-- `Client.checkMetadataAndOptions`, transcribed from client.ts. -/
def checkMetadataAndOptions :
    DispatchArg → DispatchArg → Metadata × DispatchArg
  | .mdArg m, a2 => (m, if isTruthy a2 then a2 else .optArg {})
  | a1, _ => (Metadata.empty, if isTruthy a1 then a1 else .optArg {})

/-- The shapes the unary-family argument checker accepts. -/
def checkAccepts (a1 a2 a3 : DispatchArg) : Bool :=
  isFunction a1 || isFunction a2 ||
    (isMetadataArg a1 && isObjectArg a2 && isFunction a3)

/-- Reading `CallOptions` fields off the raw options value (property
access on a non-options object yields `undefined`). -/
def argDeadline : DispatchArg → Option Nat
  | .optArg o => o.deadline
  | _ => none

def argHost : DispatchArg → Option String
  | .optArg o => o.host
  | _ => none

def argParent : DispatchArg → Option Nat
  | .optArg o => o.parent
  | _ => none

def argFlags : DispatchArg → Option Nat
  | .optArg o => o.propagate_flags
  | _ => none

def argCredentials : DispatchArg → Option Nat
  | .optArg o => o.credentials
  | _ => none

/-- Channel/Call operations performed by `makeUnaryRequest` after
argument resolution, in source order. -/
inductive ClientAction where
  | createCall (deadline : Option Nat) (host : Option String)
      (parent : Option Nat) (propagate : Option Nat)
  | setCredentials (c : Nat)
  | sendMetadata (m : Metadata)
  | writeMessage
  | halfClose
deriving DecidableEq, Repr

/-- `Client.makeUnaryRequest`: resolve the optional arguments (an
exception propagates before anything else happens), then create the
call, optionally set credentials, send metadata, write the serialized
argument, and half-close. -/
def makeUnaryRequestActions (a1 a2 a3 : DispatchArg) :
    Except String (List ClientAction) :=
  match checkOptionalUnaryResponseArguments a1 a2 a3 with
  | .error e => .error e
  | .ok r =>
      .ok ([ClientAction.createCall (argDeadline r.options) (argHost r.options)
              (argParent r.options) (argFlags r.options)] ++
           (match argCredentials r.options with
            | some c => [ClientAction.setCredentials c]
            | none => []) ++
           [ClientAction.sendMetadata r.metadata, ClientAction.writeMessage,
            ClientAction.halfClose])

/-- C2: argument resolution is deterministic by runtime type.  For the
unary-family checker, the four recognized arities resolve to (supplied
or empty Metadata, supplied or empty options, callback); for the
streaming-family checker, a leading Metadata is used (else empty) and a
supplied options object is used (else empty).  The checker accepts
exactly the recognized shapes; on a mismatch it fails with
`Error('Incorrect arguments passed')` and dispatch performs no action
(in particular no Call is created). -/
theorem dispatch_argument_resolution
    (m : Metadata) (o : CallOptions) (f : Nat)
    (a1 a2 a3 : DispatchArg) (e : String) :
    checkOptionalUnaryResponseArguments (.fnArg f) .undef .undef =
      .ok ⟨Metadata.empty, .optArg {}, f⟩
    ∧ checkOptionalUnaryResponseArguments (.mdArg m) (.fnArg f) .undef =
      .ok ⟨m, .optArg {}, f⟩
    ∧ checkOptionalUnaryResponseArguments (.optArg o) (.fnArg f) .undef =
      .ok ⟨Metadata.empty, .optArg o, f⟩
    ∧ checkOptionalUnaryResponseArguments (.mdArg m) (.optArg o) (.fnArg f) =
      .ok ⟨m, .optArg o, f⟩
    ∧ checkMetadataAndOptions (.mdArg m) (.optArg o) = (m, .optArg o)
    ∧ checkMetadataAndOptions (.mdArg m) .undef = (m, .optArg {})
    ∧ checkMetadataAndOptions (.optArg o) .undef = (Metadata.empty, .optArg o)
    ∧ checkMetadataAndOptions .undef .undef = (Metadata.empty, .optArg {})
    ∧ ((∃ r, checkOptionalUnaryResponseArguments a1 a2 a3 = .ok r) ↔
        checkAccepts a1 a2 a3 = true)
    ∧ (checkOptionalUnaryResponseArguments a1 a2 a3 = .error e →
        e = "Incorrect arguments passed" ∧
        makeUnaryRequestActions a1 a2 a3 =
          .error "Incorrect arguments passed") := by
  refine ⟨rfl, rfl, rfl, rfl, rfl, rfl, rfl, rfl, ?_, ?_⟩
  · cases a1 <;> cases a2 <;> cases a3 <;>
      simp [checkOptionalUnaryResponseArguments, checkAccepts, isFunction,
        isMetadataArg, isObjectArg]
  · intro h
    have he : e = "Incorrect arguments passed" := by
      cases a1 <;> cases a2 <;> cases a3 <;>
        simp_all [checkOptionalUnaryResponseArguments, isObjectArg]
    subst he
    exact ⟨rfl, by simp [makeUnaryRequestActions, h]⟩

/-- Witness for C2: the all-undefined shape is rejected with the exact
message and produces no dispatch action. -/
theorem dispatch_argument_resolution_witness :
    checkOptionalUnaryResponseArguments DispatchArg.undef DispatchArg.undef
        DispatchArg.undef = Except.error "Incorrect arguments passed"
    ∧ makeUnaryRequestActions DispatchArg.undef DispatchArg.undef
        DispatchArg.undef = Except.error "Incorrect arguments passed" :=
  ⟨rfl,
    ((dispatch_argument_resolution Metadata.empty {} 0 DispatchArg.undef
        DispatchArg.undef DispatchArg.undef
        "Incorrect arguments passed").2.2.2.2.2.2.2.2.2 rfl).2⟩

/-! ## Client constructor channel selection (client.ts, C10) -/

/-- `ChannelCredentials`, opaque token. -/
structure ChannelCredentials where
  id : Nat
deriving DecidableEq, Repr

/-- `ClientOptions`: only the two override fields matter to the channel
choice.  `Ch` is the channel type, `F` the type of factory-override
values; the factory is invoked through `apply` below, receiving the full
options record exactly as `options.channelFactoryOverride(address,
credentials, options)` does. -/
structure ClientOptions (Ch F : Type) where
  channelOverride : Option Ch := none
  channelFactoryOverride : Option F := none

/-- The `Client`: its symbol-keyed channel slot. -/
structure Client (Ch : Type) where
  channel : Ch

/-- The `Client` constructor's channel selection: `channelOverride`
first, else `channelFactoryOverride(address, credentials, options)`,
else `new Http2Channel(address, credentials, options)` (the `http2New`
parameter). -/
def clientConstructor {Ch F : Type}
    (http2New : String → ChannelCredentials → ClientOptions Ch F → Ch)
    (apply : F → String → ChannelCredentials → ClientOptions Ch F → Ch)
    (address : String) (credentials : ChannelCredentials)
    (options : ClientOptions Ch F) : Client Ch :=
  match options.channelOverride with
  | some ch => ⟨ch⟩
  | none =>
      match options.channelFactoryOverride with
      | some f => ⟨apply f address credentials options⟩
      | none => ⟨http2New address credentials options⟩

/-- `Client.getChannel`. -/
def Client.getChannel {Ch : Type} (c : Client Ch) : Ch := c.channel

/-- C10: channel selection follows the strict precedence
override > factory override (applied to address, credentials, options) >
new Http2Channel, and `getChannel()` returns the chosen channel. -/
theorem client_channel_selection {Ch F : Type}
    (http2New : String → ChannelCredentials → ClientOptions Ch F → Ch)
    (apply : F → String → ChannelCredentials → ClientOptions Ch F → Ch)
    (address : String) (credentials : ChannelCredentials)
    (options : ClientOptions Ch F) :
    (∀ ch, options.channelOverride = some ch →
      (clientConstructor http2New apply address credentials options).getChannel
        = ch)
    ∧ (∀ f, options.channelOverride = none →
        options.channelFactoryOverride = some f →
      (clientConstructor http2New apply address credentials options).getChannel
        = apply f address credentials options)
    ∧ (options.channelOverride = none →
        options.channelFactoryOverride = none →
      (clientConstructor http2New apply address credentials options).getChannel
        = http2New address credentials options) := by
  refine ⟨?_, ?_, ?_⟩
  · intro ch h
    simp [clientConstructor, Client.getChannel, h]
  · intro f h1 h2
    simp [clientConstructor, Client.getChannel, h1, h2]
  · intro h1 h2
    simp [clientConstructor, Client.getChannel, h1, h2]

/-- Witness for C10: a present `channelOverride` wins. -/
theorem client_channel_selection_witness :
    (clientConstructor (F := Unit) (fun _ _ _ => (7 : Nat))
        (fun _ _ _ _ => 42) "localhost:50051" ⟨0⟩
        ⟨some 5, none⟩).getChannel = 5 :=
  (client_channel_selection (F := Unit) (fun _ _ _ => (7 : Nat)) (fun _ _ _ _ => 42)
    "localhost:50051" ⟨0⟩ ⟨some 5, none⟩).1 5 rfl

end GrpcJs
